import Mathlib

/-!
Verification of the natural-language time parser, conversation-history
manager, reminder scheduling engine and topic-subscription engine of the
Telegram/Perplexity assistant repository.

Instants are modelled as `Int` microseconds since 1970-01-01T00:00:00Z
(the code works exclusively with timezone-aware UTC `datetime` values).
Civil-calendar conversions follow the standard proleptic-Gregorian
day-count algorithms; `Python`-visible operations (`replace`, `weekday`,
`timedelta` addition, the `datetime` constructor's validity checks) are
defined on top of them.
-/

abbrev Instant := Int

def usPerSecond : Int := 1000000

def usPerMinute : Int := 60000000

def usPerHour : Int := 3600000000

def usPerDay : Int := 86400000000

def usPerWeek : Int := 604800000000

def isLeapYear (y : Int) : Bool :=
  (y % 4 == 0 && y % 100 != 0) || (y % 400 == 0)

def daysInMonth (y : Int) (m : Nat) : Nat :=
  if m = 2 then (if isLeapYear y then 29 else 28)
  else if m = 4 ∨ m = 6 ∨ m = 9 ∨ m = 11 then 30
  else 31

/-- Day count since 1970-01-01 of a civil date (proleptic Gregorian). -/
def daysFromCivil (y : Int) (m d : Nat) : Int :=
  let y' : Int := if m ≤ 2 then y - 1 else y
  let era : Int := (if 0 ≤ y' then y' else y' - 399) / 400
  let yoe : Int := y' - era * 400
  let mp : Int := ((m : Int) + 9) % 12
  let doy : Int := (153 * mp + 2) / 5 + (d : Int) - 1
  let doe : Int := yoe * 365 + yoe / 4 - yoe / 100 + doy
  era * 146097 + doe - 719468

/-- Civil date (year, month, day) of a day count since 1970-01-01. -/
def civilFromDays (z0 : Int) : Int × Nat × Nat :=
  let z := z0 + 719468
  let era : Int := (if 0 ≤ z then z else z - 146096) / 146097
  let doe : Int := z - era * 146097
  let yoe : Int := (doe - doe / 1460 + doe / 36524 - doe / 146096) / 365
  let y : Int := yoe + era * 400
  let doy : Int := doe - (365 * yoe + yoe / 4 - yoe / 100)
  let mp : Int := (5 * doy + 2) / 153
  let d : Int := doy - (153 * mp + 2) / 5 + 1
  let m : Int := if mp < 10 then mp + 3 else mp - 9
  (if m ≤ 2 then y + 1 else y, m.toNat, d.toNat)

/-- `datetime(year, month, day, hour, minute, tzinfo=utc)`: validates all
fields exactly as CPython does (`MINYEAR = 1`, `MAXYEAR = 9999`) and
returns the instant, or `none` where CPython raises `ValueError`. -/
def mkDatetime (year : Int) (month day hour minute : Nat) : Option Instant :=
  if 1 ≤ year ∧ year ≤ 9999 ∧ 1 ≤ month ∧ month ≤ 12 ∧ 1 ≤ day ∧
      day ≤ daysInMonth year month ∧ hour ≤ 23 ∧ minute ≤ 59 then
    some (daysFromCivil year month day * usPerDay +
      (hour : Int) * usPerHour + (minute : Int) * usPerMinute)
  else none

def dayNumber (t : Instant) : Int := t / usPerDay

def timeOfDayUs (t : Instant) : Int := t % usPerDay

def hourOfInstant (t : Instant) : Int := timeOfDayUs t / usPerHour

def minuteOfInstant (t : Instant) : Int := timeOfDayUs t % usPerHour / usPerMinute

/-- Python's `datetime.weekday()`: Monday = 0 … Sunday = 6.
1970-01-01 was a Thursday (weekday 3). -/
def pythonWeekday (t : Instant) : Int := (dayNumber t + 3) % 7

/-- `t.replace(hour=hour, minute=minute, second=0, microsecond=0)`;
`none` where CPython raises `ValueError`. -/
def replaceTime (t : Instant) (hour minute : Nat) : Option Instant :=
  if hour ≤ 23 ∧ minute ≤ 59 then
    some (dayNumber t * usPerDay + (hour : Int) * usPerHour +
      (minute : Int) * usPerMinute)
  else none

/-- `t.replace(year=y, month=m)` keeping day and time of day;
`none` where CPython raises `ValueError`. -/
def replaceYearMonth (t : Instant) (y : Int) (m : Nat) : Option Instant :=
  let d := (civilFromDays (dayNumber t)).2.2
  if 1 ≤ y ∧ y ≤ 9999 ∧ 1 ≤ m ∧ m ≤ 12 ∧ d ≤ daysInMonth y m then
    some (daysFromCivil y m d * usPerDay + timeOfDayUs t)
  else none

/-- `t.replace(day=d, hour=hour, minute=minute, second=0, microsecond=0)`;
`none` where CPython raises `ValueError`. -/
def replaceDayAndTime (t : Instant) (d hour minute : Nat) : Option Instant :=
  let ym := civilFromDays (dayNumber t)
  if 1 ≤ d ∧ d ≤ daysInMonth ym.1 ym.2.1 ∧ hour ≤ 23 ∧ minute ≤ 59 then
    some (daysFromCivil ym.1 ym.2.1 d * usPerDay +
      (hour : Int) * usPerHour + (minute : Int) * usPerMinute)
  else none

/-- `t.replace(year=y', month=m', day=d')` keeping the time of day. -/
def replaceDate (t : Instant) (y : Int) (m d : Nat) : Option Instant :=
  if 1 ≤ y ∧ y ≤ 9999 ∧ 1 ≤ m ∧ m ≤ 12 ∧ 1 ≤ d ∧ d ≤ daysInMonth y m then
    some (daysFromCivil y m d * usPerDay + timeOfDayUs t)
  else none

-- Sanity checks of the calendar layer on known dates.
example : daysFromCivil 1970 1 1 = 0 := by decide
example : civilFromDays 0 = (1970, 1, 1) := by decide
example : pythonWeekday 0 = 3 := by decide
example : daysFromCivil 2025 1 7 = 20095 := by decide
example : civilFromDays 20095 = (2025, 1, 7) := by decide
example : pythonWeekday (20095 * usPerDay) = 1 := by decide
example : civilFromDays (daysFromCivil 2024 2 29) = (2024, 2, 29) := by decide
example : civilFromDays (daysFromCivil 2025 12 31) = (2025, 12, 31) := by decide

/-!
A small backtracking regular-expression engine covering exactly the
constructs used by the repository's patterns (`re.search` with
`re.IGNORECASE`).  Case-insensitivity is compiled into the patterns:
every literal becomes a two-character class holding its lower- and
upper-case forms.  `mlist` enumerates, in the standard leftmost-greedy
backtracking priority order, all ways a pattern can match a prefix of
the input, each with its list of captured groups; `searchFrom` scans
start positions left to right and returns the captures of the first
match, exactly like `re.search`. -/

inductive Re where
  | eps : Re
  | cls (cs : List Char) : Re
  | digit : Re
  | digits1 : Re
  | seq (a b : Re) : Re
  | alt (a b : Re) : Re
  | opt (a : Re) : Re
  | group (a : Re) : Re
deriving Repr

/-- Number of capturing groups in a pattern. -/
def numGroups : Re → Nat
  | .eps | .cls _ | .digit | .digits1 => 0
  | .seq a b => numGroups a + numGroups b
  | .alt a b => numGroups a + numGroups b
  | .opt a => numGroups a
  | .group a => numGroups a + 1

abbrev Caps := List (Option (List Char))

/-- All matches of `r` against a prefix of `s`, in backtracking priority
order; each result is the groups captured so far and the remaining
suffix. -/
def mlist : Re → List Char → List (Caps × List Char)
  | .eps, s => [([], s)]
  | .cls cs, s =>
    match s with
    | [] => []
    | x :: t => if cs.contains x then [([], t)] else []
  | .digit, s =>
    match s with
    | [] => []
    | x :: t => if x.isDigit then [([], t)] else []
  | .digits1, s =>
    (List.range (s.takeWhile Char.isDigit).length).map fun i =>
      (([] : Caps), s.drop ((s.takeWhile Char.isDigit).length - i))
  | .seq a b, s =>
    (mlist a s).flatMap fun p =>
      (mlist b p.2).map fun q => (p.1 ++ q.1, q.2)
  | .alt a b, s => mlist a s ++ mlist b s
  | .opt a, s => mlist a s ++ [(List.replicate (numGroups a) none, s)]
  | .group a, s =>
    (mlist a s).map fun p =>
      (some (s.take (s.length - p.2.length)) :: p.1, p.2)

/-- The captures of the highest-priority match of `r` at the start of
`s`, when one exists. -/
def firstHit (r : Re) (s : List Char) : Option Caps :=
  ((mlist r s).head?).map Prod.fst

/-- `re.search`: try each start position from the left; on the first
position with a match, return the captures of the highest-priority
match there. -/
def searchFrom (r : Re) : List Char → Option Caps
  | [] => firstHit r []
  | x :: t =>
    match firstHit r (x :: t) with
    | some caps => some caps
    | none => searchFrom r t

/-- A case-insensitive literal character, as a character class. -/
def ichr (c : Char) : Re := .cls [c.toLower, c.toUpper]

def reCat (rs : List Re) : Re := rs.foldr .seq .eps

/-- A case-insensitive literal word. -/
def istr (w : String) : Re := reCat (w.data.map ichr)

-- `\d{1,2}` (greedy), `\d{2}`, `\d{4}`, `(\d{4}|\d{2})`.
def d12 : Re := .seq .digit (.opt .digit)

def d2 : Re := .seq .digit .digit

def d4 : Re := .seq .digit (.seq .digit (.seq .digit .digit))

/-- The separator class: dot, slash or dash. -/
def sepCls : Re := .cls ['.', '/', '-']

/-- `([APap][Mm])`. -/
def ampmRe : Re := .seq (.cls ['A', 'P', 'a', 'p']) (.cls ['M', 'm'])

-- Engine sanity checks against Python `re` behaviour.
example : searchFrom (istr "abc") "xxabcy".data = some [] := by decide
example : searchFrom (istr "abc") "xxaBCy".data = some [] := by decide
example : searchFrom (istr "abc") "xxaby".data = none := by decide
example :
    searchFrom (reCat [.group .digits1, ichr 'x']) "ab127xy".data =
      some [some ['1', '2', '7']] := by decide
example :
    searchFrom (reCat [.group d12, ichr ':', .group d2]) "at 25:30".data =
      some [some ['2', '5'], some ['3', '0']] := by decide
example :
    searchFrom (reCat [.group (.alt d4 d2), ichr '!']) "1234!".data =
      some [some ['1', '2', '3', '4']] := by decide
example :
    searchFrom (reCat [.group (.alt d4 d2), ichr '!']) "12!".data =
      some [some ['1', '2']] := by decide
example :
    searchFrom (reCat [ichr 'a', .opt (.group ampmRe)]) "a".data =
      some [none] := by decide
example :
    searchFrom (reCat [ichr 'a', .opt (ichr ' '), .group ampmRe]) "a pm".data =
      some [some ['p', 'm']] := by decide

/-!
The sixteen entries of `DATETIME_FORMATS` from `app/bot/utils.py`,
transliterated pattern by pattern, and the dispatch of
`parse_reminder_time` over the index of the first pattern found by
`re.search`.  A result is `ok` (a returned instant), `err` (a returned
`(None, message)` pair) or `exn` (an uncaught Python exception).  -/

def fmtDate12At : Re := reCat [.group d12, sepCls, .group d12, sepCls,
  .group (.alt d4 d2), istr " at ", .group d12, ichr ':', .group d2,
  ichr ' ', .group ampmRe]

def fmtDate12Sp : Re := reCat [.group d12, sepCls, .group d12, sepCls,
  .group (.alt d4 d2), ichr ' ', .group d12, ichr ':', .group d2,
  ichr ' ', .group ampmRe]

def fmtDate24At : Re := reCat [.group d12, sepCls, .group d12, sepCls,
  .group (.alt d4 d2), istr " at ", .group d12, ichr ':', .group d2]

def fmtDate24Sp : Re := reCat [.group d12, sepCls, .group d12, sepCls,
  .group (.alt d4 d2), ichr ' ', .group d12, ichr ':', .group d2]

def fmtTime12At : Re := reCat [istr "at ", .group d12, ichr ':', .group d2,
  ichr ' ', .group ampmRe]

def fmtTime12 : Re := reCat [.group d12, ichr ':', .group d2, ichr ' ',
  .group ampmRe]

def fmtTime24At : Re := reCat [istr "at ", .group d12, ichr ':', .group d2]

def fmtTime24 : Re := reCat [.group d12, ichr ':', .group d2]

def fmtInMinutes : Re := reCat [istr "in ", .group .digits1, istr " minute",
  .opt (ichr 's')]

def fmtInHours : Re := reCat [istr "in ", .group .digits1, istr " hour",
  .opt (ichr 's')]

def fmtInDays : Re := reCat [istr "in ", .group .digits1, istr " day",
  .opt (ichr 's')]

def fmtInWeeks : Re := reCat [istr "in ", .group .digits1, istr " week",
  .opt (ichr 's')]

def fmtTomorrow : Re := istr "tomorrow"

def fmtToday : Re := istr "today"

def fmtNextWeek : Re := istr "next week"

def fmtNextMonth : Re := istr "next month"

def DATETIME_FORMATS : List Re := [fmtDate12At, fmtDate12Sp, fmtDate24At,
  fmtDate24Sp, fmtTime12At, fmtTime12, fmtTime24At, fmtTime24, fmtInMinutes,
  fmtInHours, fmtInDays, fmtInWeeks, fmtTomorrow, fmtToday, fmtNextWeek,
  fmtNextMonth]

/-- The source loop `for pattern in FORMATS: match = re.search(...)`,
returning the index of the first matching pattern and its groups. -/
def firstMatchFrom (ps : List Re) (i : Nat) (s : List Char) :
    Option (Nat × Caps) :=
  match ps with
  | [] => none
  | r :: rs =>
    match searchFrom r s with
    | some caps => some (i, caps)
    | none => firstMatchFrom rs (i + 1) s

inductive ParseResult where
  | ok (t : Instant)
  | err (msg : String)
  | exn (msg : String)
deriving Repr, DecidableEq

/-- Python `int()` on a string of decimal digits. -/
def digitsVal (ds : List Char) : Nat :=
  ds.foldl (fun a c => 10 * a + (c.toNat - 48)) 0

/-- `ampm.lower().startswith('a')` on a captured AM/PM group. -/
def startsWithA (l : List Char) : Bool :=
  match l with
  | c :: _ => c == 'a' || c == 'A'
  | [] => false

/-- `ampm.lower().startswith('p')` on a captured AM/PM group. -/
def startsWithP (l : List Char) : Bool :=
  match l with
  | c :: _ => c == 'p' || c == 'P'
  | [] => false

/-- The 12-to-24-hour conversion used identically in every AM/PM branch:
`if hour == 12 and ampm.lower().startswith('a'): hour = 0
 elif hour < 12 and ampm.lower().startswith('p'): hour += 12`. -/
def convert12 (hour : Nat) (ampm : List Char) : Nat :=
  if hour == 12 && startsWithA ampm then 0
  else if hour < 12 && startsWithP ampm then hour + 12
  else hour

/-- `int("20" + year if len(year) == 2 else year)`. -/
def yearVal (y : List Char) : Nat :=
  if y.length == 2 then digitsVal ('2' :: '0' :: y) else digitsVal y

def msg12 : String :=
  "Invalid date or time format. Please use DD/MM/YYYY at HH:MM AM/PM format."

def msg24 : String :=
  "Invalid date or time format. Please use DD/MM/YYYY at HH:MM format."

/-- The catch-all failure message of `parse_reminder_time` (apostrophes
of the original text elided). -/
def noMatchTimeMsg : String :=
  "I couldnt understand the time format. Please use a specific date/time (e.g., DD/MM/YYYY at HH:MM) or a relative time (e.g., in 30 minutes)."

/-- `datetime.min` (0001-01-01 00:00:00 UTC) in epoch microseconds. -/
def datetimeMinUs : Int := daysFromCivil 1 1 1 * usPerDay

/-- `datetime.max` (9999-12-31 23:59:59.999999 UTC) in epoch
microseconds. -/
def datetimeMaxUs : Int := daysFromCivil 10000 1 1 * usPerDay - 1

/-- `timedelta(<unit>=n)` for a non-negative `n`, as microseconds: the
CPython constructor normalises to days/seconds/microseconds and raises
`OverflowError` when the day count exceeds 999999999. -/
def timedeltaUs (n : Nat) (unitUs : Int) : Option Int :=
  if (n : Int) * unitUs / usPerDay ≤ 999999999 then some ((n : Int) * unitUs)
  else none

/-- `datetime + timedelta`: raises `OverflowError` when the sum leaves
the representable range `[datetime.min, datetime.max]`. -/
def addTimedelta (t delta : Int) : Option Int :=
  if datetimeMinUs ≤ t + delta ∧ t + delta ≤ datetimeMaxUs then
    some (t + delta)
  else none

/-- `return now + timedelta(<unit>=n)` of the relative-duration
branches, with both uncaught `OverflowError` paths (from the `timedelta`
constructor and from the addition). -/
def addDurationChecked (now : Instant) (n : Nat) (unitUs : Int) :
    ParseResult :=
  match timedeltaUs n unitUs with
  | none => .exn "OverflowError from timedelta"
  | some delta =>
    match addTimedelta now delta with
    | some t => .ok t
    | none => .exn "OverflowError from datetime add"

/-- The body of the `if match:` branch of `parse_reminder_time`,
dispatching on which pattern of `DATETIME_FORMATS` matched first,
exactly as the chain of `pattern == DATETIME_FORMATS[k]` tests does. -/
def applyDatetimeBranch (i : Nat) (caps : Caps) (now : Instant) : ParseResult :=
  if i = 0 ∨ i = 1 then
    match caps with
    | [some day, some month, some year, some hour, some minute, some ampm] =>
      let hr := convert12 (digitsVal hour) ampm
      match mkDatetime (yearVal year) (digitsVal month) (digitsVal day) hr
          (digitsVal minute) with
      | some t => .ok t
      | none => .err msg12
    | _ => .exn "group arity"
  else if i = 2 ∨ i = 3 then
    match caps with
    | [some day, some month, some year, some hour, some minute] =>
      match mkDatetime (yearVal year) (digitsVal month) (digitsVal day)
          (digitsVal hour) (digitsVal minute) with
      | some t => .ok t
      | none => .err msg24
    | _ => .exn "group arity"
  else if i = 4 ∨ i = 5 then
    match caps with
    | [some hour, some minute, some ampm] =>
      let hr := convert12 (digitsVal hour) ampm
      match replaceTime now hr (digitsVal minute) with
      | some timeToday =>
        .ok (if timeToday < now then timeToday + usPerDay else timeToday)
      | none => .exn "ValueError from replace"
    | _ => .exn "group arity"
  else if i = 6 ∨ i = 7 then
    match caps with
    | [some hour, some minute] =>
      match replaceTime now (digitsVal hour) (digitsVal minute) with
      | some timeToday =>
        .ok (if timeToday < now then timeToday + usPerDay else timeToday)
      | none => .exn "ValueError from replace"
    | _ => .exn "group arity"
  else if i = 8 then
    match caps with
    | [some n] => addDurationChecked now (digitsVal n) usPerMinute
    | _ => .exn "group arity"
  else if i = 9 then
    match caps with
    | [some n] => addDurationChecked now (digitsVal n) usPerHour
    | _ => .exn "group arity"
  else if i = 10 then
    match caps with
    | [some n] => addDurationChecked now (digitsVal n) usPerDay
    | _ => .exn "group arity"
  else if i = 11 then
    match caps with
    | [some n] => addDurationChecked now (digitsVal n) usPerWeek
    | _ => .exn "group arity"
  else if i = 12 then
    match replaceTime (now + usPerDay) 9 0 with
    | some t => .ok t
    | none => .exn "ValueError from replace"
  else if i = 13 then .ok (now + usPerHour)
  else if i = 14 then
    let du0 : Int := (7 - pythonWeekday now) % 7
    let du : Int := if du0 = 0 then 7 else du0
    match replaceTime (now + du * usPerDay) 9 0 with
    | some t => .ok t
    | none => .exn "ValueError from replace"
  else if i = 15 then
    let c := civilFromDays (dayNumber now)
    let nextMonth := if c.2.1 = 12 then replaceDate now (c.1 + 1) 1 1
      else replaceDate now c.1 (c.2.1 + 1) 1
    match nextMonth with
    | some t =>
      match replaceTime t 9 0 with
      | some t2 => .ok t2
      | none => .exn "ValueError from replace"
    | none => .exn "ValueError from replace"
  else .exn "unknown pattern index"

/-- `parse_reminder_time` from `app/bot/utils.py`. -/
def parse_reminder_time (text : String) (now : Instant) : ParseResult :=
  match firstMatchFrom DATETIME_FORMATS 0 text.data with
  | some (i, caps) => applyDatetimeBranch i caps now
  | none => .err noMatchTimeMsg

-- Concrete behaviour checks of the whole parsing pipeline.
example : parse_reminder_time "in 45 minutes" 0 = .ok (45 * usPerMinute) := by
  decide
example : parse_reminder_time "in 2 hours" 0 = .ok (2 * usPerHour) := by decide
example : parse_reminder_time "in 45 seconds" 0 = .err noMatchTimeMsg := by
  decide
example : parse_reminder_time "at 25:30" 0 = .exn "ValueError from replace" := by
  decide
example : parse_reminder_time "32/01/2025 at 10:00" 0 = .err msg24 := by decide
example :
    parse_reminder_time "13/05/2025 at 9:30 PM" 0 =
      parse_reminder_time "13/05/2025 at 21:30" 0 := by decide
example :
    parse_reminder_time "13/05/2025 at 21:30" 0 =
      .ok (daysFromCivil 2025 5 13 * usPerDay + 21 * usPerHour +
        30 * usPerMinute) := by decide

/-!
`RECURRENCE_FORMATS`, `DOW_MAP` and `parse_recurrence_pattern` from
`app/bot/utils.py`.  -/

def weekdayAltRe : Re := .alt (istr "monday") (.alt (istr "tuesday")
  (.alt (istr "wednesday") (.alt (istr "thursday") (.alt (istr "friday")
  (.alt (istr "saturday") (istr "sunday"))))))

def recDaily : Re := reCat [istr "every day at ", .group d12, ichr ':',
  .group d2, .opt (ichr ' '), .opt (.group ampmRe)]

def recWeekly : Re := reCat [istr "every ", .group weekdayAltRe, istr " at ",
  .group d12, ichr ':', .group d2, .opt (ichr ' '), .opt (.group ampmRe)]

def ordSuffixRe : Re := .alt (istr "st") (.alt (istr "nd")
  (.alt (istr "rd") (istr "th")))

def recMonthly : Re := reCat [istr "every ", .group d12, .opt (.group ordSuffixRe),
  istr " of ", .group (.alt (istr "each") (istr "every")), istr " month at ",
  .group d12, ichr ':', .group d2, .opt (ichr ' '), .opt (.group ampmRe)]

def RECURRENCE_FORMATS : List Re := [recDaily, recWeekly, recMonthly]

/-- `DOW_MAP`: cron day-of-week numbers, Sunday = 0. -/
def DOW_MAP (w : List Char) : Option Nat :=
  if w = "monday".data then some 1
  else if w = "tuesday".data then some 2
  else if w = "wednesday".data then some 3
  else if w = "thursday".data then some 4
  else if w = "friday".data then some 5
  else if w = "saturday".data then some 6
  else if w = "sunday".data then some 0
  else none

def lowerChars (l : List Char) : List Char := l.map Char.toLower

inductive RecurResult where
  | ok (cron : String) (first : Instant)
  | err (msg : String)
  | exn (msg : String)
deriving Repr, DecidableEq

/-- The catch-all failure message of `parse_recurrence_pattern`
(apostrophes of the original text elided). -/
def noMatchRecurMsg : String :=
  "I couldnt understand the recurrence pattern. Please use a format like every day at HH:MM, every Monday at HH:MM, or every 15th of each month at HH:MM."

/-- Optional-group-aware 12-hour conversion:
`if ampm: if hour == 12 and ... elif hour < 12 and ...`. -/
def convert12Opt (hour : Nat) (ampm : Option (List Char)) : Nat :=
  match ampm with
  | some ap => convert12 hour ap
  | none => hour

/-- Dispatch over the index of the first matching entry of
`RECURRENCE_FORMATS`. -/
def applyRecurrenceBranch (i : Nat) (caps : Caps) (now : Instant) :
    RecurResult :=
  if i = 0 then
    match caps with
    | [some hour, some minute, ampm] =>
      let hr := convert12Opt (digitsVal hour) ampm
      let mi := digitsVal minute
      let cron := Nat.repr mi ++ " " ++ Nat.repr hr ++ " * * *"
      match replaceTime now hr mi with
      | some firstTime =>
        .ok cron (if firstTime < now then firstTime + usPerDay else firstTime)
      | none => .exn "ValueError from replace"
    | _ => .exn "group arity"
  else if i = 1 then
    match caps with
    | [some dayOfWeek, some hour, some minute, ampm] =>
      let hr := convert12Opt (digitsVal hour) ampm
      let mi := digitsVal minute
      match DOW_MAP (lowerChars dayOfWeek) with
      | some dow =>
        let cron := Nat.repr mi ++ " " ++ Nat.repr hr ++ " * * " ++ Nat.repr dow
        let daysUntil0 : Int := ((dow : Int) - pythonWeekday now) % 7
        let daysUntil : Int :=
          if daysUntil0 = 0 && (hourOfInstant now > (hr : Int) ||
              (hourOfInstant now == (hr : Int) &&
               minuteOfInstant now ≥ (mi : Int))) then 7
          else daysUntil0
        match replaceTime (now + daysUntil * usPerDay) hr mi with
        | some firstTime => .ok cron firstTime
        | none => .exn "ValueError from replace"
      | none => .exn "KeyError"
    | _ => .exn "group arity"
  else if i = 2 then
    match caps with
    | [some day, _ord, _each, some hour, some minute, ampm] =>
      let d := digitsVal day
      let hr := convert12Opt (digitsVal hour) ampm
      let mi := digitsVal minute
      let cron := Nat.repr mi ++ " " ++ Nat.repr hr ++ " " ++ Nat.repr d ++ " * *"
      match replaceDayAndTime now (min d 28) hr mi with
      | some ft =>
        if ft < now then
          let c := civilFromDays (dayNumber now)
          let moved := if c.2.1 = 12 then replaceYearMonth ft (c.1 + 1) 1
            else replaceYearMonth ft c.1 (c.2.1 + 1)
          match moved with
          | some ft2 => .ok cron ft2
          | none => .exn "ValueError from replace"
        else .ok cron ft
      | none => .exn "ValueError from replace"
    | _ => .exn "group arity"
  else .exn "unknown pattern index"

/-- `parse_recurrence_pattern` from `app/bot/utils.py`. -/
def parse_recurrence_pattern (text : String) (now : Instant) : RecurResult :=
  match firstMatchFrom RECURRENCE_FORMATS 0 text.data with
  | some (i, caps) => applyRecurrenceBranch i caps now
  | none => .err noMatchRecurMsg

-- Concrete behaviour checks.
example :
    parse_recurrence_pattern "every day at 08:30" 0 =
      .ok "30 8 * * *" (8 * usPerHour + 30 * usPerMinute) := by decide
example :
    parse_recurrence_pattern "every monday at 9:15 pm" 0 =
      .ok "15 21 * * 1" (5 * usPerDay + 21 * usPerHour + 15 * usPerMinute) := by
  decide
example : parse_recurrence_pattern "whenever" 0 = .err noMatchRecurMsg := by
  decide

/-!
Conversation-history management from `app/bot/utils.py`.  A stored
history value is modelled post-JSON-parse: `none` stands for every path
on which reading the stored string fails or yields a non-list (absent
value, `"[]"`, malformed JSON, a JSON non-list, a list entry on which
`.get` raises — all of which the code maps to the same fallback), and
`some h` for a successfully parsed list of entries.  An entry's `role`
is `none` when the stored dict has no `"role"` key. -/

structure Msg where
  role : Option String
  content : String
deriving Repr, DecidableEq

def systemMsg : Msg :=
  ⟨some "system", "You are a helpful AI assistant powered by Perplexitys Sonar API."⟩

/-- The interleaving loop
`for i in range(min(len(user_msgs), len(assistant_msgs)))`. -/
def pairMessages : List Msg → List Msg → List Msg
  | u :: us, a :: as' => u :: a :: pairMessages us as'
  | _, _ => []

/-- Python `history[-limit:]` (note `h[-0:]` is the whole list). -/
def lastN (limit : Nat) (h : List Msg) : List Msg :=
  if limit = 0 then h else h.drop (h.length - limit)

/-- `get_conversation_history` from `app/bot/utils.py`. -/
def get_conversation_history (stored : Option (List Msg)) (limit : Nat) :
    List Msg :=
  match stored with
  | none => [systemMsg]
  | some h0 =>
    let h := lastN limit h0
    let userMessages := h.filter fun m => m.role == some "user"
    let assistantMessages := h.filter fun m => m.role == some "assistant"
    let paired := pairMessages userMessages assistantMessages
    let paired := if assistantMessages.length < userMessages.length then
        paired ++ userMessages.getLast?.toList
      else paired
    systemMsg :: paired

/-- `history[-20:]` applied after an update when the list exceeds 20. -/
def trim20 (h : List Msg) : List Msg :=
  if 20 < h.length then h.drop (h.length - 20) else h

/-- `update_conversation_history` from `app/bot/utils.py`: the new
stored list (the code serialises it back into the user row). -/
def update_conversation_history (stored : Option (List Msg))
    (role content : String) : List Msg :=
  let history := match stored with
    | none => []
    | some h => h
  let history' := match history.getLast? with
    | some last =>
      if last.role = some role then history.dropLast ++ [⟨last.role, content⟩]
      else history ++ [⟨some role, content⟩]
    | none => [⟨some role, content⟩]
  trim20 history'

example :
    update_conversation_history
      (some (update_conversation_history (some []) "user" "hi")) "user"
      "hi again" = [⟨some "user", "hi again"⟩] := by decide
example :
    get_conversation_history (some [⟨some "assistant", "a"⟩,
      ⟨some "user", "q1"⟩, ⟨some "user", "q2"⟩]) 10 =
      [systemMsg, ⟨some "user", "q1"⟩, ⟨some "assistant", "a"⟩,
        ⟨some "user", "q2"⟩] := by decide

/-!
`NewsService` from `app/services/news_service.py`.  `process_subscription`
is modelled over an explicit environment describing the outcome of its
three external effects: the user lookup, the remote news query, and the
Telegram send (which the code wraps in `try ... except`, returning
`False` on any raised exception). -/

structure UserRow where
  id : Nat
  telegram_id : Nat
  reminders_count : Nat
deriving Repr, DecidableEq

structure TopicSubscription where
  id : Nat
  user_id : Nat
  topic : String
  frequency : String
  last_run : Option Instant
  next_run : Option Instant
  is_active : Bool
deriving Repr, DecidableEq

/-- `NewsService._calculate_next_run` (the `now` the method reads from
the clock is passed explicitly). -/
def calculate_next_run (frequency : String) (now : Instant) : Instant :=
  if frequency = "hourly" then now + usPerHour
  else if frequency = "daily" then now + usPerDay
  else if frequency = "weekly" then now + usPerWeek
  else now + usPerDay

structure ProcessEnv where
  user : Option UserRow
  newsSuccess : Bool
  sendSuccess : Bool
deriving Repr, DecidableEq

/-- `NewsService.process_subscription`: returns the `bool` result and
the possibly-updated subscription row. -/
def process_subscription (env : ProcessEnv) (now : Instant)
    (sub : TopicSubscription) : Bool × TopicSubscription :=
  match env.user with
  | none => (false, sub)
  | some u =>
    if u.telegram_id = 0 then (false, sub)
    else if !env.newsSuccess then (false, sub)
    else if !env.sendSuccess then (false, sub)
    else (true, { sub with
      last_run := some now,
      next_run := some (calculate_next_run sub.frequency now) })

/-!
`ReminderScheduler` from `app/scheduler/reminder.py`.  The APScheduler
job set is modelled as the list of live job ids; `add_job` with
`replace_existing=True` keeps at most one job per id, and `remove_job`
raises when the id is absent (the caller catches this). -/

structure Reminder where
  id : Nat
  user_id : Nat
  text : String
  scheduled_at : Instant
  is_recurring : Bool
  recurrence_pattern : Option String
  is_active : Bool
deriving Repr, DecidableEq

def jobId (reminderId : Nat) : String := "reminder_" ++ Nat.repr reminderId

/-- `scheduler.add_job(..., id=j, replace_existing=True)`. -/
def addJob (jobs : List String) (j : String) : List String :=
  if jobs.contains j then jobs else jobs ++ [j]

/-- `scheduler.remove_job(j)`: raises `JobLookupError` if absent. -/
def removeJob (jobs : List String) (j : String) : Except String (List String) :=
  if jobs.contains j then .ok (jobs.filter fun x => x ≠ j)
  else .error "JobLookupError"

/-- The `try: remove_job ... except` wrapper used by `delete_reminder`. -/
def removeJobCaught (jobs : List String) (j : String) : List String :=
  match removeJob jobs j with
  | .ok l => l
  | .error _ => jobs

/-- `ReminderScheduler.schedule_reminder`: given whether the owning user
row was found, the current instant and the live job set, returns the
(possibly deactivated) reminder row and the new job set. -/
def schedule_reminder (userFound : Bool) (now : Instant)
    (jobs : List String) (r : Reminder) : Reminder × List String :=
  if !userFound then (r, jobs)
  else if r.scheduled_at < now ∧ r.is_recurring = false then
    ({ r with is_active := false }, jobs)
  else (r, addJob jobs (jobId r.id))

/-- `ReminderScheduler.schedule_reminders_from_db`: schedules every
active reminder in turn (the user-lookup outcome supplied per user id). -/
def schedule_reminders_from_db (userFound : Nat → Bool) (now : Instant)
    (jobs : List String) (rs : List Reminder) : List Reminder × List String :=
  match rs with
  | [] => ([], jobs)
  | r :: rest =>
    if r.is_active then
      let p := schedule_reminder (userFound r.user_id) now jobs r
      let q := schedule_reminders_from_db userFound now p.2 rest
      (p.1 :: q.1, q.2)
    else
      let q := schedule_reminders_from_db userFound now jobs rest
      (r :: q.1, q.2)

structure DB where
  reminders : Nat → Option Reminder
  users : Nat → Option UserRow
  jobs : List String

/-- `ReminderScheduler.delete_reminder`. -/
def delete_reminder (db : DB) (reminderId : Nat) : Bool × DB :=
  match db.reminders reminderId with
  | none => (false, db)
  | some r =>
    let db1 := match db.users r.user_id with
      | some u =>
        if 0 < u.reminders_count then
          let u' : UserRow := { u with reminders_count := u.reminders_count - 1 }
          { db with users := fun i => if i = r.user_id then some u' else db.users i }
        else db
      | none => db
    let db2 := { db1 with
      reminders := fun i => if i = reminderId then none else db1.reminders i }
    (true, { db2 with jobs := removeJobCaught db2.jobs (jobId reminderId) })

/-!
Facts about the matcher used by the symbolic proofs: a match consumes a
prefix (`mlist_rest_drop`); a pattern that can only match text containing
one of a fixed set of characters finds nothing in a string free of them
(`needsOneOf` and its soundness); and head-of-match composition lemmas
for sequencing. -/

theorem mlist_rest_drop (r : Re) :
    ∀ (s : List Char) (p : Caps × List Char), p ∈ mlist r s → ∃ k, p.2 = s.drop k := by
  induction r with
  | eps =>
    intro s p hp
    simp only [mlist, List.mem_singleton] at hp
    exact ⟨0, by simp [hp]⟩
  | cls cs =>
    intro s p hp
    match s with
    | [] => simp [mlist] at hp
    | x :: t =>
      simp only [mlist] at hp
      split at hp
      · simp only [List.mem_singleton] at hp
        exact ⟨1, by simp [hp]⟩
      · simp at hp
  | digit =>
    intro s p hp
    match s with
    | [] => simp [mlist] at hp
    | x :: t =>
      simp only [mlist] at hp
      split at hp
      · simp only [List.mem_singleton] at hp
        exact ⟨1, by simp [hp]⟩
      · simp at hp
  | digits1 =>
    intro s p hp
    simp only [mlist, List.mem_map] at hp
    obtain ⟨i, _, hip⟩ := hp
    exact ⟨(s.takeWhile Char.isDigit).length - i, by rw [← hip]⟩
  | seq a b iha ihb =>
    intro s p hp
    simp only [mlist, List.mem_flatMap, List.mem_map] at hp
    obtain ⟨q, hq, y, hy, hyp⟩ := hp
    obtain ⟨k1, hk1⟩ := iha s q hq
    obtain ⟨k2, hk2⟩ := ihb q.2 y hy
    refine ⟨k1 + k2, ?_⟩
    rw [← hyp]
    simp only
    rw [hk2, hk1, List.drop_drop]
  | alt a b iha ihb =>
    intro s p hp
    simp only [mlist, List.mem_append] at hp
    rcases hp with hp | hp
    · exact iha s p hp
    · exact ihb s p hp
  | opt a iha =>
    intro s p hp
    simp only [mlist, List.mem_append, List.mem_singleton] at hp
    rcases hp with hp | hp
    · exact iha s p hp
    · exact ⟨0, by simp [hp]⟩
  | group a iha =>
    intro s p hp
    simp only [mlist, List.mem_map] at hp
    obtain ⟨q, hq, hqp⟩ := hp
    obtain ⟨k, hk⟩ := iha s q hq
    exact ⟨k, by rw [← hqp]; exact hk⟩

/-- `needsOneOf r cs = true` means every string matched by `r` contains a
character of `cs`. -/
def needsOneOf : Re → List Char → Bool
  | .cls xs, cs => xs.all fun x => cs.contains x
  | .seq a b, cs => needsOneOf a cs || needsOneOf b cs
  | .alt a b, cs => needsOneOf a cs && needsOneOf b cs
  | .group a, cs => needsOneOf a cs
  | _, _ => false

theorem mlist_eq_nil_of_needsOneOf (r : Re) (cs : List Char) :
    needsOneOf r cs = true → ∀ s : List Char, (∀ c ∈ cs, c ∉ s) → mlist r s = [] := by
  induction r with
  | eps => intro h; simp [needsOneOf] at h
  | digit => intro h; simp [needsOneOf] at h
  | digits1 => intro h; simp [needsOneOf] at h
  | opt a iha => intro h; simp [needsOneOf] at h
  | cls xs =>
    intro h s hs
    match s with
    | [] => rfl
    | x :: t =>
      simp only [mlist]
      have hx : x ∉ xs := by
        intro hmem
        have hcx : cs.contains x = true := by
          simp only [needsOneOf, List.all_eq_true] at h
          exact h x hmem
        exact hs x (List.elem_iff.mp hcx) (List.mem_cons_self x t)
      simp [hx]
  | seq a b iha ihb =>
    intro h s hs
    simp only [needsOneOf, Bool.or_eq_true] at h
    rcases h with h | h
    · simp only [mlist, iha h s hs, List.flatMap_nil]
    · simp only [mlist]
      rw [List.eq_nil_iff_forall_not_mem]
      intro p hp
      rw [List.mem_flatMap] at hp
      obtain ⟨q, hq, hpq⟩ := hp
      obtain ⟨k, hk⟩ := mlist_rest_drop a s q hq
      have : mlist b q.2 = [] := by
        refine ihb h q.2 ?_
        intro c hc hcmem
        exact hs c hc (List.mem_of_mem_drop (hk ▸ hcmem))
      rw [this] at hpq
      simp at hpq
  | alt a b iha ihb =>
    intro h s hs
    simp only [needsOneOf, Bool.and_eq_true] at h
    simp only [mlist, iha h.1 s hs, ihb h.2 s hs, List.append_nil]
  | group a iha =>
    intro h s hs
    simp only [mlist, iha h s hs, List.map_nil]

theorem firstHit_eq_none_of_needsOneOf (r : Re) (cs : List Char)
    (h : needsOneOf r cs = true) (s : List Char)
    (hs : ∀ c ∈ cs, c ∉ s) : firstHit r s = none := by
  rw [firstHit, mlist_eq_nil_of_needsOneOf r cs h s hs]
  rfl

theorem searchFrom_eq_none (r : Re) (cs : List Char)
    (h : needsOneOf r cs = true) :
    ∀ s : List Char, (∀ c ∈ cs, c ∉ s) → searchFrom r s = none := by
  intro s
  induction s with
  | nil =>
    intro hs
    rw [searchFrom, firstHit_eq_none_of_needsOneOf r cs h [] hs]
  | cons x t ih =>
    intro hs
    have hih := ih fun c hc hmem => hs c hc (List.mem_cons_of_mem x hmem)
    rw [searchFrom, firstHit_eq_none_of_needsOneOf r cs h (x :: t) hs]
    exact hih

theorem searchFrom_of_head {r : Re} {s : List Char} {p : Caps × List Char}
    (h : (mlist r s).head? = some p) : searchFrom r s = some p.1 := by
  have hf : firstHit r s = some p.1 := by rw [firstHit, h]; rfl
  cases s with
  | nil => rw [searchFrom]; exact hf
  | cons x t => rw [searchFrom, hf]

theorem head_mlist_seq {a b : Re} {s : List Char} {x y : Caps × List Char}
    (ha : (mlist a s).head? = some x) (hb : (mlist b x.2).head? = some y) :
    (mlist (.seq a b) s).head? = some (x.1 ++ y.1, y.2) := by
  obtain ⟨ta, haa⟩ : ∃ ta, mlist a s = x :: ta := by
    cases hma : mlist a s with
    | nil => rw [hma] at ha; simp at ha
    | cons z tz =>
      rw [hma] at ha
      simp only [List.head?_cons, Option.some.injEq] at ha
      exact ⟨tz, by rw [ha]⟩
  obtain ⟨tb, hbb⟩ : ∃ tb, mlist b x.2 = y :: tb := by
    cases hmb : mlist b x.2 with
    | nil => rw [hmb] at hb; simp at hb
    | cons z tz =>
      rw [hmb] at hb
      simp only [List.head?_cons, Option.some.injEq] at hb
      exact ⟨tz, by rw [hb]⟩
  simp only [mlist, haa, List.flatMap_cons, hbb, List.map_cons, List.cons_append,
    List.head?_cons]

theorem takeWhile_digits_append (ds rest : List Char)
    (h2 : ∀ c ∈ ds, c.isDigit = true) :
    (ds ++ ' ' :: rest).takeWhile Char.isDigit = ds := by
  induction ds with
  | nil => simp [List.takeWhile]
  | cons d t ih =>
    have hd := h2 d (List.mem_cons_self d t)
    have ht := ih fun c hc => h2 c (List.mem_cons_of_mem d hc)
    simp [List.takeWhile_cons, hd, ht]

theorem head_range_map {α : Type} (f : Nat → α) (k : Nat) (h : 0 < k) :
    ((List.range k).map f).head? = some (f 0) := by
  cases k with
  | zero => omega
  | succ j => rw [List.range_succ_eq_map]; simp

theorem head_mlist_group_digits1 (ds rest : List Char) (h1 : ds ≠ [])
    (h2 : ∀ c ∈ ds, c.isDigit = true) :
    (mlist (.group .digits1) (ds ++ ' ' :: rest)).head? =
      some ([some ds], ' ' :: rest) := by
  have htw : (ds ++ ' ' :: rest).takeWhile Char.isDigit = ds :=
    takeWhile_digits_append ds rest h2
  have hpos : 0 < ((ds ++ ' ' :: rest).takeWhile Char.isDigit).length := by
    rw [htw]
    cases ds with
    | nil => exact absurd rfl h1
    | cons a t => simp
  have hmg : mlist (.group .digits1) (ds ++ ' ' :: rest) =
      (mlist .digits1 (ds ++ ' ' :: rest)).map fun p =>
        (some ((ds ++ ' ' :: rest).take
          ((ds ++ ' ' :: rest).length - p.2.length)) :: p.1, p.2) := rfl
  have hmd : mlist .digits1 (ds ++ ' ' :: rest) =
      (List.range ((ds ++ ' ' :: rest).takeWhile Char.isDigit).length).map
        fun i => (([] : Caps), (ds ++ ' ' :: rest).drop
          (((ds ++ ' ' :: rest).takeWhile Char.isDigit).length - i)) := rfl
  rw [hmg, List.head?_map, hmd, head_range_map _ _ hpos]
  simp only [Nat.sub_zero, htw, List.drop_left, Option.map]
  have hlen : (ds ++ ' ' :: rest).length - (' ' :: rest).length = ds.length := by
    simp
  rw [hlen, List.take_left]

/-!
Symbolic-input facts for the relative-duration patterns: on input
`in <digits> <unit>` the eight date/time-of-day patterns (which all
require a colon) and the earlier-unit patterns (which all require a
letter absent from the input) find nothing, while the matching unit
pattern captures exactly the digit run. -/

theorem not_mem_digits_sandwich (c : Char) (hc : c.isDigit = false)
    (pre post ds : List Char) (hpre : c ∉ pre) (hpost : c ∉ post)
    (h2 : ∀ x ∈ ds, x.isDigit = true) : c ∉ pre ++ (ds ++ post) := by
  intro hmem
  rcases List.mem_append.mp hmem with h | h
  · exact hpre h
  rcases List.mem_append.mp h with h | h
  · rw [h2 c h] at hc
    cases hc
  · exact hpost h

theorem searchFrom_avoid (r : Re) (cs : List Char)
    (hr : needsOneOf r cs = true) (pre post ds : List Char)
    (hpre : ∀ c ∈ cs, c ∉ pre) (hpost : ∀ c ∈ cs, c ∉ post)
    (hdig : ∀ c ∈ cs, c.isDigit = false)
    (h2 : ∀ x ∈ ds, x.isDigit = true) :
    searchFrom r (pre ++ (ds ++ post)) = none :=
  searchFrom_eq_none r cs hr _ fun c hc =>
    not_mem_digits_sandwich c (hdig c hc) pre post ds (hpre c hc)
      (hpost c hc) h2

theorem searchFrom_in_unit (C : Re) (ds rest : List Char) (h1 : ds ≠ [])
    (h2 : ∀ c ∈ ds, c.isDigit = true)
    (hC : (mlist C (' ' :: rest)).head? = some (([], []) : Caps × List Char)) :
    searchFrom (.seq (istr "in ") (.seq (.group .digits1) C))
      ('i' :: 'n' :: ' ' :: (ds ++ ' ' :: rest)) = some [some ds] := by
  have hA : (mlist (istr "in ") ('i' :: 'n' :: ' ' :: (ds ++ ' ' :: rest))).head? =
      some ((([] : Caps), ds ++ ' ' :: rest)) := rfl
  have hG := head_mlist_group_digits1 ds rest h1 h2
  have hB := head_mlist_seq hG hC
  have hTop := head_mlist_seq hA hB
  exact searchFrom_of_head hTop

theorem firstMatchFrom_cons_none {r : Re} {rs : List Re} {i : Nat}
    {s : List Char} (h : searchFrom r s = none) :
    firstMatchFrom (r :: rs) i s = firstMatchFrom rs (i + 1) s := by
  rw [firstMatchFrom, h]

theorem firstMatchFrom_cons_some {r : Re} {rs : List Re} {i : Nat}
    {s : List Char} {caps : Caps} (h : searchFrom r s = some caps) :
    firstMatchFrom (r :: rs) i s = some (i, caps) := by
  rw [firstMatchFrom, h]

theorem firstMatch_in_minutes (ds : List Char) (h1 : ds ≠ [])
    (h2 : ∀ c ∈ ds, c.isDigit = true) :
    firstMatchFrom DATETIME_FORMATS 0
      ('i' :: 'n' :: ' ' :: (ds ++ ' ' :: ['m','i','n','u','t','e','s'])) =
      some (8, [some ds]) := by
  have hp : searchFrom fmtInMinutes ('i' :: 'n' :: ' ' ::
      (ds ++ ' ' :: ['m','i','n','u','t','e','s'])) = some [some ds] :=
    searchFrom_in_unit (.seq (istr " minute") (.seq (.opt (ichr 's')) .eps)) ds
      ['m','i','n','u','t','e','s'] h1 h2 (by decide)
  have hnone : ∀ r : Re, needsOneOf r [':'] = true →
      searchFrom r ('i' :: 'n' :: ' ' ::
        (ds ++ ' ' :: ['m','i','n','u','t','e','s'])) = none := fun r hr =>
    searchFrom_avoid r [':'] hr ['i','n',' ']
      (' ' :: ['m','i','n','u','t','e','s']) ds (by decide) (by decide)
      (by decide) h2
  rw [show DATETIME_FORMATS = fmtDate12At :: fmtDate12Sp :: fmtDate24At ::
    fmtDate24Sp :: fmtTime12At :: fmtTime12 :: fmtTime24At :: fmtTime24 ::
    fmtInMinutes :: fmtInHours :: fmtInDays :: fmtInWeeks :: fmtTomorrow ::
    fmtToday :: fmtNextWeek :: fmtNextMonth :: [] from rfl]
  rw [firstMatchFrom_cons_none (hnone _ (by decide)),
    firstMatchFrom_cons_none (hnone _ (by decide)),
    firstMatchFrom_cons_none (hnone _ (by decide)),
    firstMatchFrom_cons_none (hnone _ (by decide)),
    firstMatchFrom_cons_none (hnone _ (by decide)),
    firstMatchFrom_cons_none (hnone _ (by decide)),
    firstMatchFrom_cons_none (hnone _ (by decide)),
    firstMatchFrom_cons_none (hnone _ (by decide)),
    firstMatchFrom_cons_some hp]

theorem firstMatch_in_hours (ds : List Char) (h1 : ds ≠ [])
    (h2 : ∀ c ∈ ds, c.isDigit = true) :
    firstMatchFrom DATETIME_FORMATS 0
      ('i' :: 'n' :: ' ' :: (ds ++ ' ' :: ['h','o','u','r','s'])) =
      some (9, [some ds]) := by
  have hp : searchFrom fmtInHours ('i' :: 'n' :: ' ' ::
      (ds ++ ' ' :: ['h','o','u','r','s'])) = some [some ds] :=
    searchFrom_in_unit (.seq (istr " hour") (.seq (.opt (ichr 's')) .eps)) ds
      ['h','o','u','r','s'] h1 h2 (by decide)
  have hnone : ∀ (r : Re) (cs : List Char), needsOneOf r cs = true →
      (∀ c ∈ cs, c ∉ ['i','n',' ']) →
      (∀ c ∈ cs, c ∉ ' ' :: ['h','o','u','r','s']) →
      (∀ c ∈ cs, c.isDigit = false) →
      searchFrom r ('i' :: 'n' :: ' ' ::
        (ds ++ ' ' :: ['h','o','u','r','s'])) = none := fun r cs hr ha hb hd =>
    searchFrom_avoid r cs hr ['i','n',' '] (' ' :: ['h','o','u','r','s']) ds
      ha hb hd h2
  rw [show DATETIME_FORMATS = fmtDate12At :: fmtDate12Sp :: fmtDate24At ::
    fmtDate24Sp :: fmtTime12At :: fmtTime12 :: fmtTime24At :: fmtTime24 ::
    fmtInMinutes :: fmtInHours :: fmtInDays :: fmtInWeeks :: fmtTomorrow ::
    fmtToday :: fmtNextWeek :: fmtNextMonth :: [] from rfl]
  rw [firstMatchFrom_cons_none (hnone _ [':'] (by decide) (by decide) (by decide) (by decide)),
    firstMatchFrom_cons_none (hnone _ [':'] (by decide) (by decide) (by decide) (by decide)),
    firstMatchFrom_cons_none (hnone _ [':'] (by decide) (by decide) (by decide) (by decide)),
    firstMatchFrom_cons_none (hnone _ [':'] (by decide) (by decide) (by decide) (by decide)),
    firstMatchFrom_cons_none (hnone _ [':'] (by decide) (by decide) (by decide) (by decide)),
    firstMatchFrom_cons_none (hnone _ [':'] (by decide) (by decide) (by decide) (by decide)),
    firstMatchFrom_cons_none (hnone _ [':'] (by decide) (by decide) (by decide) (by decide)),
    firstMatchFrom_cons_none (hnone _ [':'] (by decide) (by decide) (by decide) (by decide)),
    firstMatchFrom_cons_none (hnone _ ['m','M'] (by decide) (by decide) (by decide) (by decide)),
    firstMatchFrom_cons_some hp]

theorem firstMatch_in_days (ds : List Char) (h1 : ds ≠ [])
    (h2 : ∀ c ∈ ds, c.isDigit = true) :
    firstMatchFrom DATETIME_FORMATS 0
      ('i' :: 'n' :: ' ' :: (ds ++ ' ' :: ['d','a','y','s'])) =
      some (10, [some ds]) := by
  have hp : searchFrom fmtInDays ('i' :: 'n' :: ' ' ::
      (ds ++ ' ' :: ['d','a','y','s'])) = some [some ds] :=
    searchFrom_in_unit (.seq (istr " day") (.seq (.opt (ichr 's')) .eps)) ds
      ['d','a','y','s'] h1 h2 (by decide)
  have hnone : ∀ (r : Re) (cs : List Char), needsOneOf r cs = true →
      (∀ c ∈ cs, c ∉ ['i','n',' ']) →
      (∀ c ∈ cs, c ∉ ' ' :: ['d','a','y','s']) →
      (∀ c ∈ cs, c.isDigit = false) →
      searchFrom r ('i' :: 'n' :: ' ' ::
        (ds ++ ' ' :: ['d','a','y','s'])) = none := fun r cs hr ha hb hd =>
    searchFrom_avoid r cs hr ['i','n',' '] (' ' :: ['d','a','y','s']) ds
      ha hb hd h2
  rw [show DATETIME_FORMATS = fmtDate12At :: fmtDate12Sp :: fmtDate24At ::
    fmtDate24Sp :: fmtTime12At :: fmtTime12 :: fmtTime24At :: fmtTime24 ::
    fmtInMinutes :: fmtInHours :: fmtInDays :: fmtInWeeks :: fmtTomorrow ::
    fmtToday :: fmtNextWeek :: fmtNextMonth :: [] from rfl]
  rw [firstMatchFrom_cons_none (hnone _ [':'] (by decide) (by decide) (by decide) (by decide)),
    firstMatchFrom_cons_none (hnone _ [':'] (by decide) (by decide) (by decide) (by decide)),
    firstMatchFrom_cons_none (hnone _ [':'] (by decide) (by decide) (by decide) (by decide)),
    firstMatchFrom_cons_none (hnone _ [':'] (by decide) (by decide) (by decide) (by decide)),
    firstMatchFrom_cons_none (hnone _ [':'] (by decide) (by decide) (by decide) (by decide)),
    firstMatchFrom_cons_none (hnone _ [':'] (by decide) (by decide) (by decide) (by decide)),
    firstMatchFrom_cons_none (hnone _ [':'] (by decide) (by decide) (by decide) (by decide)),
    firstMatchFrom_cons_none (hnone _ [':'] (by decide) (by decide) (by decide) (by decide)),
    firstMatchFrom_cons_none (hnone _ ['m','M'] (by decide) (by decide) (by decide) (by decide)),
    firstMatchFrom_cons_none (hnone _ ['h','H'] (by decide) (by decide) (by decide) (by decide)),
    firstMatchFrom_cons_some hp]

theorem firstMatch_in_weeks (ds : List Char) (h1 : ds ≠ [])
    (h2 : ∀ c ∈ ds, c.isDigit = true) :
    firstMatchFrom DATETIME_FORMATS 0
      ('i' :: 'n' :: ' ' :: (ds ++ ' ' :: ['w','e','e','k','s'])) =
      some (11, [some ds]) := by
  have hp : searchFrom fmtInWeeks ('i' :: 'n' :: ' ' ::
      (ds ++ ' ' :: ['w','e','e','k','s'])) = some [some ds] :=
    searchFrom_in_unit (.seq (istr " week") (.seq (.opt (ichr 's')) .eps)) ds
      ['w','e','e','k','s'] h1 h2 (by decide)
  have hnone : ∀ (r : Re) (cs : List Char), needsOneOf r cs = true →
      (∀ c ∈ cs, c ∉ ['i','n',' ']) →
      (∀ c ∈ cs, c ∉ ' ' :: ['w','e','e','k','s']) →
      (∀ c ∈ cs, c.isDigit = false) →
      searchFrom r ('i' :: 'n' :: ' ' ::
        (ds ++ ' ' :: ['w','e','e','k','s'])) = none := fun r cs hr ha hb hd =>
    searchFrom_avoid r cs hr ['i','n',' '] (' ' :: ['w','e','e','k','s']) ds
      ha hb hd h2
  rw [show DATETIME_FORMATS = fmtDate12At :: fmtDate12Sp :: fmtDate24At ::
    fmtDate24Sp :: fmtTime12At :: fmtTime12 :: fmtTime24At :: fmtTime24 ::
    fmtInMinutes :: fmtInHours :: fmtInDays :: fmtInWeeks :: fmtTomorrow ::
    fmtToday :: fmtNextWeek :: fmtNextMonth :: [] from rfl]
  rw [firstMatchFrom_cons_none (hnone _ [':'] (by decide) (by decide) (by decide) (by decide)),
    firstMatchFrom_cons_none (hnone _ [':'] (by decide) (by decide) (by decide) (by decide)),
    firstMatchFrom_cons_none (hnone _ [':'] (by decide) (by decide) (by decide) (by decide)),
    firstMatchFrom_cons_none (hnone _ [':'] (by decide) (by decide) (by decide) (by decide)),
    firstMatchFrom_cons_none (hnone _ [':'] (by decide) (by decide) (by decide) (by decide)),
    firstMatchFrom_cons_none (hnone _ [':'] (by decide) (by decide) (by decide) (by decide)),
    firstMatchFrom_cons_none (hnone _ [':'] (by decide) (by decide) (by decide) (by decide)),
    firstMatchFrom_cons_none (hnone _ [':'] (by decide) (by decide) (by decide) (by decide)),
    firstMatchFrom_cons_none (hnone _ ['m','M'] (by decide) (by decide) (by decide) (by decide)),
    firstMatchFrom_cons_none (hnone _ ['h','H'] (by decide) (by decide) (by decide) (by decide)),
    firstMatchFrom_cons_none (hnone _ ['y','Y'] (by decide) (by decide) (by decide) (by decide)),
    firstMatchFrom_cons_some hp]

/-- C6: counterexample to the claim as frozen, which asserts success
for every positive N and every unit including seconds.  Two failures:
`DATETIME_FORMATS` contains no seconds pattern, so `in 45 seconds`
falls through to the generic no-match error; and when
`timedelta(weeks=N)` normalises to more than 999999999 days CPython
raises an uncaught `OverflowError`, so `in 9999999999 weeks` produces
an exception, not an instant. -/
theorem C6_counterexample :
    parse_reminder_time "in 45 seconds" 0 = .err noMatchTimeMsg ∧
    parse_reminder_time "in 9999999999 weeks" 0 =
      .exn "OverflowError from timedelta" ∧
    ∀ t : Instant, parse_reminder_time "in 45 seconds" 0 ≠ .ok t ∧
      parse_reminder_time "in 9999999999 weeks" 0 ≠ .ok t := by
  refine ⟨by decide, by decide, ?_⟩
  intro t
  constructor
  · intro h
    rw [show parse_reminder_time "in 45 seconds" 0 = .err noMatchTimeMsg from
      by decide] at h
    exact ParseResult.noConfusion h
  · intro h
    rw [show parse_reminder_time "in 9999999999 weeks" 0 =
      .exn "OverflowError from timedelta" from by decide] at h
    exact ParseResult.noConfusion h

theorem addDurationChecked_ok (now : Instant) (n : Nat) (unitUs : Int)
    (hu : 0 ≤ unitUs) (hlo : datetimeMinUs ≤ now)
    (hhi : now + (n : Int) * unitUs ≤ datetimeMaxUs) :
    addDurationChecked now n unitUs = .ok (now + (n : Int) * unitUs) := by
  have hnn : (0 : Int) ≤ (n : Int) * unitUs :=
    mul_nonneg (Int.ofNat_nonneg n) hu
  have hspan : datetimeMaxUs - datetimeMinUs < 1000000000 * usPerDay := by
    decide
  have hstep : (n : Int) * unitUs ≤ datetimeMaxUs - datetimeMinUs := by
    linarith
  have hlt : (n : Int) * unitUs < 1000000000 * usPerDay :=
    lt_of_le_of_lt hstep hspan
  have hb1 : (n : Int) * unitUs / usPerDay ≤ 999999999 := by
    have hdivlt : (n : Int) * unitUs / usPerDay < 1000000000 :=
      Int.ediv_lt_of_lt_mul (by decide) hlt
    omega
  have hb2lo : datetimeMinUs ≤ now + (n : Int) * unitUs := by linarith
  unfold addDurationChecked timedeltaUs addTimedelta
  simp [hb1, hb2lo, hhi]

/-- C6 (amended): for every positive integer N, written in decimal as
the nonempty digit string `ds`, and every unit among minutes, hours,
days and weeks — seconds dropped, and N bounded so that `now` plus the
duration stays within `datetime`'s representable range, both
restrictions forced by the counterexample — `parse_reminder_time`
applied to `in N <unit>` at a representable current instant `now`
returns `now` plus the corresponding duration with no error. -/
theorem C6_relative_durations_amended (ds : List Char) (now : Instant)
    (h1 : ds ≠ []) (h2 : ∀ c ∈ ds, c.isDigit = true)
    (hlo : datetimeMinUs ≤ now) :
    (now + (digitsVal ds : Int) * usPerMinute ≤ datetimeMaxUs →
      parse_reminder_time ("in " ++ String.mk ds ++ " minutes") now =
        .ok (now + (digitsVal ds : Int) * usPerMinute)) ∧
    (now + (digitsVal ds : Int) * usPerHour ≤ datetimeMaxUs →
      parse_reminder_time ("in " ++ String.mk ds ++ " hours") now =
        .ok (now + (digitsVal ds : Int) * usPerHour)) ∧
    (now + (digitsVal ds : Int) * usPerDay ≤ datetimeMaxUs →
      parse_reminder_time ("in " ++ String.mk ds ++ " days") now =
        .ok (now + (digitsVal ds : Int) * usPerDay)) ∧
    (now + (digitsVal ds : Int) * usPerWeek ≤ datetimeMaxUs →
      parse_reminder_time ("in " ++ String.mk ds ++ " weeks") now =
        .ok (now + (digitsVal ds : Int) * usPerWeek)) := by
  refine ⟨?_, ?_, ?_, ?_⟩
  · intro hhi
    have hok := addDurationChecked_ok now (digitsVal ds) usPerMinute
      (by decide) hlo hhi
    have hdata : ("in " ++ String.mk ds ++ " minutes").data =
        'i' :: 'n' :: ' ' :: (ds ++ ' ' :: ['m','i','n','u','t','e','s']) := by
      rw [String.data_append, String.data_append,
        show ("in ".data : List Char) = ['i','n',' '] from rfl,
        show (" minutes".data : List Char) =
          ' ' :: ['m','i','n','u','t','e','s'] from rfl,
        show (String.mk ds).data = ds from rfl]
      simp [List.append_assoc]
    unfold parse_reminder_time
    rw [hdata, firstMatch_in_minutes ds h1 h2]
    exact hok
  · intro hhi
    have hok := addDurationChecked_ok now (digitsVal ds) usPerHour
      (by decide) hlo hhi
    have hdata : ("in " ++ String.mk ds ++ " hours").data =
        'i' :: 'n' :: ' ' :: (ds ++ ' ' :: ['h','o','u','r','s']) := by
      rw [String.data_append, String.data_append,
        show ("in ".data : List Char) = ['i','n',' '] from rfl,
        show (" hours".data : List Char) = ' ' :: ['h','o','u','r','s'] from rfl,
        show (String.mk ds).data = ds from rfl]
      simp [List.append_assoc]
    unfold parse_reminder_time
    rw [hdata, firstMatch_in_hours ds h1 h2]
    exact hok
  · intro hhi
    have hok := addDurationChecked_ok now (digitsVal ds) usPerDay
      (by decide) hlo hhi
    have hdata : ("in " ++ String.mk ds ++ " days").data =
        'i' :: 'n' :: ' ' :: (ds ++ ' ' :: ['d','a','y','s']) := by
      rw [String.data_append, String.data_append,
        show ("in ".data : List Char) = ['i','n',' '] from rfl,
        show (" days".data : List Char) = ' ' :: ['d','a','y','s'] from rfl,
        show (String.mk ds).data = ds from rfl]
      simp [List.append_assoc]
    unfold parse_reminder_time
    rw [hdata, firstMatch_in_days ds h1 h2]
    exact hok
  · intro hhi
    have hok := addDurationChecked_ok now (digitsVal ds) usPerWeek
      (by decide) hlo hhi
    have hdata : ("in " ++ String.mk ds ++ " weeks").data =
        'i' :: 'n' :: ' ' :: (ds ++ ' ' :: ['w','e','e','k','s']) := by
      rw [String.data_append, String.data_append,
        show ("in ".data : List Char) = ['i','n',' '] from rfl,
        show (" weeks".data : List Char) = ' ' :: ['w','e','e','k','s'] from rfl,
        show (String.mk ds).data = ds from rfl]
      simp [List.append_assoc]
    unfold parse_reminder_time
    rw [hdata, firstMatch_in_weeks ds h1 h2]
    exact hok

/-- C6 witness: the amended theorem applied at N = 45, unit = minutes
(the spec's own example `in 45 minutes` giving T + 45m), and at
N = 45, unit = weeks, discharging the representability bounds at
now = 1970-01-01 00:00 UTC. -/
theorem C6_relative_durations_witness :
    parse_reminder_time "in 45 minutes" 0 = .ok (45 * usPerMinute) ∧
    parse_reminder_time "in 45 weeks" 0 = .ok (45 * usPerWeek) := by
  have h := C6_relative_durations_amended ['4','5'] 0 (by decide) (by decide)
    (by decide)
  exact ⟨h.1 (by decide), h.2.2.2 (by decide)⟩

/-- C1: evaluation of the code at the failing input (claim C1 is right
about the intent and the code is wrong).  At current instant 2025-01-07
00:00 UTC — a Tuesday — `parse_recurrence_pattern "every Monday at
08:00"` returns cron `0 8 * * 1` (which fires on Mondays) together with
a first occurrence of 2025-01-07 08:00, which is that same Tuesday
(`pythonWeekday` 1), not the nearest upcoming Monday 2025-01-13 08:00:
the weekly branch computes `(dow - now.weekday()) % 7` mixing `DOW_MAP`
cron numbering (Sunday = 0, Monday = 1) with Python `weekday()`
numbering (Monday = 0), so the first occurrence lands one day after the
requested weekday and contradicts the cron expression returned next to
it. -/
theorem C1_every_monday_first_occurrence_bug :
    parse_recurrence_pattern "every Monday at 08:00" (20095 * usPerDay) =
      .ok "0 8 * * 1" (20095 * usPerDay + 8 * usPerHour) ∧
    pythonWeekday (20095 * usPerDay + 8 * usPerHour) = 1 ∧
    civilFromDays (dayNumber (20095 * usPerDay + 8 * usPerHour)) =
      (2025, 1, 7) := by
  refine ⟨by decide, by decide, by decide⟩

/-- C2: a successful `process_subscription` invocation at time `now`
returns `true`, sets `last_run = now` and sets `next_run` to `now` plus
exactly one frequency period (one hour for `hourly`, one week for
`weekly`, one day otherwise), with no reference to the subscription's
previous `next_run`. -/
theorem C2_process_advances_from_now (env : ProcessEnv) (u : UserRow)
    (now : Instant) (sub : TopicSubscription) (hu : env.user = some u)
    (ht : u.telegram_id ≠ 0) (hn : env.newsSuccess = true)
    (hs : env.sendSuccess = true) :
    (process_subscription env now sub).1 = true ∧
    (process_subscription env now sub).2.last_run = some now ∧
    (process_subscription env now sub).2.next_run = some (now +
      (if sub.frequency = "hourly" then usPerHour
       else if sub.frequency = "weekly" then usPerWeek else usPerDay)) := by
  have hps : process_subscription env now sub = (true, { sub with
      last_run := some now,
      next_run := some (calculate_next_run sub.frequency now) }) := by
    unfold process_subscription
    rw [hu]
    simp [ht, hn, hs]
  rw [hps]
  refine ⟨rfl, rfl, ?_⟩
  unfold calculate_next_run
  by_cases h1 : sub.frequency = "hourly" <;>
    by_cases h2 : sub.frequency = "daily" <;>
      by_cases h3 : sub.frequency = "weekly" <;>
        simp_all

def c2Sub : TopicSubscription := ⟨1, 7, "ai news", "daily", none, some 0, true⟩

def c2User : UserRow := ⟨7, 99, 0⟩

def c2Env : ProcessEnv := ⟨some c2User, true, true⟩

/-- C2 witness: with `next_run = T = 0`, frequency `daily`, and
`process_subscription` invoked at `T + 3 days`, the new `next_run` is
`T + 3 days + 1 day`, not `T + 1 day`. -/
theorem C2_process_witness :
    (process_subscription c2Env (3 * usPerDay) c2Sub).2.next_run =
      some (3 * usPerDay + usPerDay) ∧
    (3 * usPerDay + usPerDay : Int) ≠ 0 + usPerDay := by
  have h := C2_process_advances_from_now c2Env c2User (3 * usPerDay) c2Sub
    rfl (by decide) rfl rfl
  refine ⟨?_, by decide⟩
  rw [h.2.2]
  decide

/-- C8: every failing path of `process_subscription` — owning user
missing, user without a Telegram id, remote news query unsuccessful, or
message delivery raising — returns `false` and leaves the subscription
row (in particular `last_run` and `next_run`) unchanged. -/
theorem C8_failure_leaves_subscription (env : ProcessEnv) (now : Instant)
    (sub : TopicSubscription)
    (h : env.user = none ∨ (∃ u, env.user = some u ∧ u.telegram_id = 0) ∨
      env.newsSuccess = false ∨ env.sendSuccess = false) :
    process_subscription env now sub = (false, sub) := by
  obtain ⟨ou, news, send⟩ := env
  rcases ou with _ | u
  · rfl
  · simp only [process_subscription]
    rcases h with h | ⟨u', hu', hz⟩ | h | h
    · simp at h
    · simp only [Option.some.injEq] at hu'
      subst hu'
      simp [hz]
    · simp only at h
      subst h
      by_cases hz : u.telegram_id = 0 <;> simp [hz]
    · simp only at h
      subst h
      by_cases hz : u.telegram_id = 0 <;> by_cases hnews : news <;> simp [hz, hnews]

/-- C8 witness: the theorem applied to a concrete failing environment
(missing user) and a concrete subscription row. -/
theorem C8_failure_witness :
    process_subscription ⟨none, true, true⟩ (5 * usPerDay) c2Sub =
      (false, c2Sub) :=
  C8_failure_leaves_subscription ⟨none, true, true⟩ (5 * usPerDay) c2Sub
    (Or.inl rfl)

def c3Reminder : Reminder := ⟨1, 7, "stretch", 0, false, none, true⟩

/-- C3 counterexample: the claim as stated is false.  When the owning
user row is not found, `schedule_reminder` returns before the past-check
runs, so a non-recurring reminder whose `scheduled_at` is in the past
(here 1970-01-01 00:00 against a current instant one day later) is left
active rather than marked inactive — no trigger is installed, but the
deactivation the claim promises does not happen. -/
theorem C3_counterexample :
    (schedule_reminder false usPerDay [] c3Reminder).1.is_active = true ∧
    c3Reminder.scheduled_at < usPerDay ∧
    c3Reminder.is_recurring = false := by
  refine ⟨rfl, by decide, rfl⟩

/-- C3 (amended): for a reminder with `is_recurring = false` and
`scheduled_at` in the past, `schedule_reminder` — the single path used
both at creation and by startup recovery — marks it inactive and
installs no trigger provided the owning user row is found; when the
user row is missing, the reminder is returned unchanged and still no
trigger is installed, so a past one-shot reminder is never armed. -/
theorem C3_past_oneshot_amended (userFound : Bool) (now : Instant)
    (jobs : List String) (r : Reminder) (hpast : r.scheduled_at < now)
    (hone : r.is_recurring = false) :
    (userFound = true → schedule_reminder userFound now jobs r =
      ({ r with is_active := false }, jobs)) ∧
    (userFound = false → schedule_reminder userFound now jobs r = (r, jobs)) ∧
    (schedule_reminder userFound now jobs r).2 = jobs := by
  unfold schedule_reminder
  cases userFound <;> simp [hpast, hone]

/-- C3 witness: the amended theorem applied to a concrete past one-shot
reminder with the user found. -/
theorem C3_past_oneshot_witness :
    schedule_reminder true usPerDay [] c3Reminder =
      ({ c3Reminder with is_active := false }, []) := by
  have h := C3_past_oneshot_amended true usPerDay [] c3Reminder (by decide) rfl
  exact h.1 rfl

theorem trim20_length_le (l : List Msg) : (trim20 l).length ≤ l.length := by
  unfold trim20
  split <;> simp

/-- C5: updating a non-empty history whose last entry already has the
incoming role replaces that entry's content instead of appending, so the
stored sequence never grows on a same-role update. -/
theorem C5_same_role_replaces (h : List Msg) (last : Msg)
    (role content : String) (hlast : h.getLast? = some last)
    (hrole : last.role = some role) :
    update_conversation_history (some h) role content =
      trim20 (h.dropLast ++ [⟨some role, content⟩]) ∧
    (update_conversation_history (some h) role content).length ≤ h.length := by
  have hupd : update_conversation_history (some h) role content =
      trim20 (h.dropLast ++ [⟨some role, content⟩]) := by
    unfold update_conversation_history
    simp [hlast, hrole]
  refine ⟨hupd, ?_⟩
  rw [hupd]
  have hne : h ≠ [] := by
    intro he
    rw [he] at hlast
    simp at hlast
  have hpos : 0 < h.length := List.length_pos.mpr hne
  have hlen : (h.dropLast ++ [(⟨some role, content⟩ : Msg)]).length =
      h.length := by
    simp [List.length_dropLast]
    omega
  calc (trim20 (h.dropLast ++ [(⟨some role, content⟩ : Msg)])).length
      ≤ (h.dropLast ++ [(⟨some role, content⟩ : Msg)]).length :=
        trim20_length_le _
    _ = h.length := hlen

/-- C5 witness: appending `user`,"hi" then `user`,"hi again" yields a
one-entry history containing only "hi again". -/
theorem C5_same_role_witness :
    update_conversation_history (some [⟨some "user", "hi"⟩]) "user"
      "hi again" = [⟨some "user", "hi again"⟩] := by
  have h := C5_same_role_replaces [⟨some "user", "hi"⟩] ⟨some "user", "hi"⟩
    "user" "hi again" rfl rfl
  exact h.1.trans (by decide)
theorem delete_reminder_not_found {db : DB} {rid : Nat}
    (h : db.reminders rid = none) : delete_reminder db rid = (false, db) := by
  unfold delete_reminder
  rw [h]

theorem removeJobCaught_contains_self (jobs : List String) (j : String) :
    (removeJobCaught jobs j).contains j = false := by
  unfold removeJobCaught removeJob
  by_cases hc : jobs.contains j = true
  · rw [if_pos hc]
    rw [Bool.eq_false_iff]
    intro habs
    have hmem := List.elem_iff.mp habs
    have h2 := (List.mem_filter.mp hmem).2
    simp at h2
  · rw [if_neg hc]
    simpa using hc

/-- C9: deleting an existing reminder returns true, removes the row,
disarms any trigger, and decrements the owner's reminders_count without
ever taking it below zero; a second call with the same id, or any call
with a nonexistent id, returns false and changes nothing (the
`remove_job` exception is caught internally, so no exception escapes). -/
theorem C9_delete_reminder (db : DB) (rid : Nat) :
    (db.reminders rid = none → delete_reminder db rid = (false, db)) ∧
    ∀ r, db.reminders rid = some r →
      (delete_reminder db rid).1 = true ∧
      (delete_reminder db rid).2.reminders rid = none ∧
      (delete_reminder db rid).2.jobs.contains (jobId rid) = false ∧
      (∀ u, db.users r.user_id = some u →
        (delete_reminder db rid).2.users r.user_id =
          some { u with reminders_count := u.reminders_count - 1 }) ∧
      delete_reminder (delete_reminder db rid).2 rid =
        (false, (delete_reminder db rid).2) := by
  refine ⟨fun h => delete_reminder_not_found h, ?_⟩
  intro r hr
  have hdel : delete_reminder db rid = (true,
      let db1 := match db.users r.user_id with
        | some u =>
          if 0 < u.reminders_count then
            let u' : UserRow := { u with reminders_count := u.reminders_count - 1 }
            { db with users := fun i => if i = r.user_id then some u' else db.users i }
          else db
        | none => db
      let db2 := { db1 with
        reminders := fun i => if i = rid then none else db1.reminders i }
      { db2 with jobs := removeJobCaught db2.jobs (jobId rid) }) := by
    unfold delete_reminder
    rw [hr]
  have hnone2 : (delete_reminder db rid).2.reminders rid = none := by
    rw [hdel]
    simp
  refine ⟨by rw [hdel], hnone2, ?_, ?_, delete_reminder_not_found hnone2⟩
  · rw [hdel]
    exact removeJobCaught_contains_self _ _
  · intro u hu
    rw [hdel]
    simp only
    rw [hu]
    by_cases hz : 0 < u.reminders_count
    · simp [hz]
    · have h0 : u.reminders_count = 0 := by omega
      rcases u with ⟨ui, ut, uc⟩
      simp only at h0
      subst h0
      simp [hz, hu]

def c9Reminder : Reminder := ⟨1, 7, "call mom", 10 * usPerDay, false, none, true⟩

def c9User : UserRow := ⟨7, 99, 3⟩

def c9DB : DB :=
  ⟨fun i => if i = 1 then some c9Reminder else none,
   fun i => if i = 7 then some c9User else none,
   [jobId 1]⟩

/-- C9 witness: the theorem applied to a concrete store holding one
reminder (id 1, owner 7 with reminders_count 3) and its armed job. -/
theorem C9_delete_witness :
    (delete_reminder c9DB 1).1 = true ∧
    (delete_reminder c9DB 1).2.reminders 1 = none ∧
    (delete_reminder c9DB 1).2.jobs.contains (jobId 1) = false ∧
    (delete_reminder c9DB 1).2.users 7 = some ⟨7, 99, 2⟩ ∧
    delete_reminder (delete_reminder c9DB 1).2 1 =
      (false, (delete_reminder c9DB 1).2) := by
  have h := (C9_delete_reminder c9DB 1).2 c9Reminder rfl
  exact ⟨h.1, h.2.1, h.2.2.1, h.2.2.2.1 c9User rfl, h.2.2.2.2⟩
/-- Checker for the shape `(user assistant)* (user)?`. -/
def pairedShape : List Msg → Bool
  | [] => true
  | [u] => u.role == some "user"
  | u :: a :: rest =>
    u.role == some "user" && (a.role == some "assistant" && pairedShape rest)

/-- Checker: every two consecutive entries have differing roles. -/
def rolesAlternate : List Msg → Bool
  | a :: b :: rest => (a.role != b.role) && rolesAlternate (b :: rest)
  | _ => true

theorem pairedShape_pairs (us : List Msg) (as' extra : List Msg)
    (hus : ∀ m ∈ us, m.role = some "user")
    (has : ∀ m ∈ as', m.role = some "assistant")
    (hextra : pairedShape extra = true) :
    pairedShape (pairMessages us as' ++ extra) = true := by
  induction us generalizing as' with
  | nil =>
    cases as' <;> simpa [pairMessages] using hextra
  | cons u ut ih =>
    cases as' with
    | nil => simpa [pairMessages] using hextra
    | cons a at' =>
      have hu := hus u (List.mem_cons_self u ut)
      have ha := has a (List.mem_cons_self a at')
      have hrec := ih at' (fun m hm => hus m (List.mem_cons_of_mem u hm))
        (fun m hm => has m (List.mem_cons_of_mem a hm))
      simp only [pairMessages, List.cons_append, pairedShape, hu, ha,
        beq_self_eq_true, Bool.and_self, Bool.true_and, List.append_eq]
      exact hrec

theorem alternate_of_pairedShape :
    ∀ l : List Msg, pairedShape l = true →
      rolesAlternate l = true ∧ ∀ m, l.head? = some m → m.role = some "user"
  | [] => fun _ => ⟨rfl, fun m hm => by simp at hm⟩
  | [u] => fun hp => by
    refine ⟨rfl, ?_⟩
    intro m hm
    simp only [List.head?_cons, Option.some.injEq] at hm
    subst hm
    simpa [pairedShape] using hp
  | u :: a :: rest => fun hp => by
    simp only [pairedShape, Bool.and_eq_true, beq_iff_eq] at hp
    obtain ⟨hu, ha, hrest⟩ := hp
    obtain ⟨haltRest, hheadRest⟩ := alternate_of_pairedShape rest hrest
    have haRest : rolesAlternate (a :: rest) = true := by
      cases rest with
      | nil => rfl
      | cons m rest' =>
        have hm : m.role = some "user" := hheadRest m rfl
        simp only [rolesAlternate, Bool.and_eq_true]
        exact ⟨by simp [ha, hm], haltRest⟩
    refine ⟨?_, ?_⟩
    · simp only [rolesAlternate, Bool.and_eq_true]
      exact ⟨by simp [hu, ha], haRest⟩
    · intro m hm
      simp only [List.head?_cons, Option.some.injEq] at hm
      subst hm
      exact hu

theorem no_system_of_pairedShape :
    ∀ l : List Msg, pairedShape l = true →
      ∀ m ∈ l, m.role ≠ some "system"
  | [] => fun _ m hm => absurd hm (List.not_mem_nil m)
  | [u] => fun hp m hm => by
    simp only [List.mem_singleton] at hm
    subst hm
    simp only [pairedShape, beq_iff_eq] at hp
    simp [hp]
  | u :: a :: rest => fun hp m hm => by
    simp only [pairedShape, Bool.and_eq_true, beq_iff_eq] at hp
    obtain ⟨hu, ha, hrest⟩ := hp
    rcases List.mem_cons.mp hm with rfl | hm'
    · simp [hu]
    rcases List.mem_cons.mp hm' with rfl | hm'' 
    · simp [ha]
    · exact no_system_of_pairedShape rest hrest m hm''

/-- C4: for every stored conversation-history value — including the
absent/malformed/non-list cases (`none`) and arbitrary stored entry
sequences — the list returned by `get_conversation_history` begins with
exactly one system-role entry (the head is the system message and no
tail entry has the system role), every pair of consecutive entries has
differing roles, and the tail has the shape
`(user assistant)* (user)?`, i.e. it ends optionally with a single
unanswered user entry. -/
theorem C4_history_well_formed (stored : Option (List Msg)) (limit : Nat) :
    (get_conversation_history stored limit).head? = some systemMsg ∧
    (∀ m ∈ (get_conversation_history stored limit).tail,
      m.role ≠ some "system") ∧
    rolesAlternate (get_conversation_history stored limit) = true ∧
    pairedShape (get_conversation_history stored limit).tail = true := by
  have key : ∀ T : List Msg, pairedShape T = true →
      (systemMsg :: T).head? = some systemMsg ∧
      (∀ m ∈ (systemMsg :: T).tail, m.role ≠ some "system") ∧
      rolesAlternate (systemMsg :: T) = true ∧
      pairedShape (systemMsg :: T).tail = true := by
    intro T hshape
    obtain ⟨halt, hhead⟩ := alternate_of_pairedShape T hshape
    refine ⟨rfl, ?_, ?_, by simpa using hshape⟩
    · intro m hm
      exact no_system_of_pairedShape T hshape m (by simpa using hm)
    · cases T with
      | nil => rfl
      | cons m T' =>
        have hm : m.role = some "user" := hhead m rfl
        simp only [rolesAlternate, Bool.and_eq_true]
        exact ⟨by simp [systemMsg, hm], halt⟩
  cases stored with
  | none => exact key [] rfl
  | some h0 =>
    have hus : ∀ m ∈ (lastN limit h0).filter
        (fun m => m.role == some "user"), m.role = some "user" := by
      intro m hm
      have := (List.mem_filter.mp hm).2
      simpa using this
    have has : ∀ m ∈ (lastN limit h0).filter
        (fun m => m.role == some "assistant"), m.role = some "assistant" := by
      intro m hm
      have := (List.mem_filter.mp hm).2
      simpa using this
    have hshape : pairedShape
        (if ((lastN limit h0).filter fun m => m.role == some "assistant").length <
            ((lastN limit h0).filter fun m => m.role == some "user").length then
          pairMessages ((lastN limit h0).filter fun m => m.role == some "user")
            ((lastN limit h0).filter fun m => m.role == some "assistant") ++
            ((lastN limit h0).filter fun m =>
              m.role == some "user").getLast?.toList
        else
          pairMessages ((lastN limit h0).filter fun m => m.role == some "user")
            ((lastN limit h0).filter fun m =>
              m.role == some "assistant")) = true := by
      by_cases hc : ((lastN limit h0).filter fun m =>
          m.role == some "assistant").length <
          ((lastN limit h0).filter fun m => m.role == some "user").length
      · rw [if_pos hc]
        cases hgl : ((lastN limit h0).filter fun m =>
            m.role == some "user").getLast? with
        | none => exact pairedShape_pairs _ _ [] hus has rfl
        | some u =>
          have hu : u.role = some "user" :=
            hus u (List.mem_of_mem_getLast? (by simp [hgl]))
          exact pairedShape_pairs _ _ [u] hus has (by simp [pairedShape, hu])
      · rw [if_neg hc]
        have hps := pairedShape_pairs ((lastN limit h0).filter fun m =>
            m.role == some "user") ((lastN limit h0).filter fun m =>
            m.role == some "assistant") [] hus has rfl
        simpa using hps
    exact key _ hshape
/-- C7 counterexample: the claim as stated is false.  `"at 25:30"`
matches the time-only 24-hour pattern with an out-of-range hour, and the
branch calls `now.replace(hour=25, ...)` outside any `try`, so CPython
raises an uncaught `ValueError` instead of returning a format-hint error
message. -/
theorem C7_timeonly_counterexample :
    parse_reminder_time "at 25:30" 0 = .exn "ValueError from replace" ∧
    ∀ msg, parse_reminder_time "at 25:30" 0 ≠ .err msg := by
  refine ⟨by decide, ?_⟩
  intro msg h
  rw [show parse_reminder_time "at 25:30" 0 = .exn "ValueError from replace"
    from by decide] at h
  exact ParseResult.noConfusion h

/-- C7 (amended): for every input whose first matching pattern is one of
the four explicit-date patterns and whose captured values do not form a
valid calendar date or time (e.g. day 32), `parse_reminder_time`
returns the dedicated format-hint error message (the 12-hour or 24-hour
variant matching the pattern) rather than raising; the time-only
patterns are excluded, since there an out-of-range value raises an
uncaught `ValueError` (see the counterexample). -/
theorem C7_invalid_date_hint_amended (text : String) (now : Instant)
    (i : Nat) (caps : Caps)
    (hfm : firstMatchFrom DATETIME_FORMATS 0 text.data = some (i, caps)) :
    (∀ d mo y h mi ap, (i = 0 ∨ i = 1) →
      caps = [some d, some mo, some y, some h, some mi, some ap] →
      mkDatetime (yearVal y) (digitsVal mo) (digitsVal d)
        (convert12 (digitsVal h) ap) (digitsVal mi) = none →
      parse_reminder_time text now = .err msg12) ∧
    (∀ d mo y h mi, (i = 2 ∨ i = 3) →
      caps = [some d, some mo, some y, some h, some mi] →
      mkDatetime (yearVal y) (digitsVal mo) (digitsVal d)
        (digitsVal h) (digitsVal mi) = none →
      parse_reminder_time text now = .err msg24) := by
  constructor
  · intro d mo y h mi ap hi hcaps hinv
    subst hcaps
    unfold parse_reminder_time
    rw [hfm]
    rcases hi with rfl | rfl <;>
      simp [applyDatetimeBranch, hinv]
  · intro d mo y h mi hi hcaps hinv
    subst hcaps
    unfold parse_reminder_time
    rw [hfm]
    rcases hi with rfl | rfl <;>
      simp [applyDatetimeBranch, hinv]

/-- C7 witness: the amended theorem applied to the spec's day-32
example `32/01/2025 at 10:00`, which first-matches the explicit-date
24-hour pattern and yields the dedicated 24-hour format hint. -/
theorem C7_invalid_date_witness :
    parse_reminder_time "32/01/2025 at 10:00" 0 = .err msg24 := by
  have h := (C7_invalid_date_hint_amended "32/01/2025 at 10:00" 0 2
    [some ['3','2'], some ['0','1'], some ['2','0','2','5'], some ['1','0'],
      some ['0','0']] (by decide)).2 ['3','2'] ['0','1'] ['2','0','2','5']
    ['1','0'] ['0','0'] (Or.inl rfl) rfl (by decide)
  exact h
/-- C10: whenever the 12-hour explicit-date pattern is the first match
of one input and the 24-hour explicit-date pattern the first match of
another, with identical day/month/year/minute captures, the 12-hour
input's hour in `[1, 12]`, and the 24-hour input's hour the 12-to-24
conversion of the 12-hour one (12 AM to 0, hours below 12 with PM to
hour + 12, all other combinations unchanged, as `convert12` states),
and the date is valid, both inputs parse to the same instant. -/
theorem C10_ampm_matches_24h (t12 t24 : String) (now : Instant)
    (d mo y h mi h24 ap : List Char)
    (hm12 : firstMatchFrom DATETIME_FORMATS 0 t12.data =
      some (0, [some d, some mo, some y, some h, some mi, some ap]))
    (hm24 : firstMatchFrom DATETIME_FORMATS 0 t24.data =
      some (2, [some d, some mo, some y, some h24, some mi]))
    (hh : 1 ≤ digitsVal h ∧ digitsVal h ≤ 12)
    (hconv : digitsVal h24 = convert12 (digitsVal h) ap)
    (hvalid : mkDatetime (yearVal y) (digitsVal mo) (digitsVal d)
      (convert12 (digitsVal h) ap) (digitsVal mi) ≠ none) :
    parse_reminder_time t12 now = parse_reminder_time t24 now ∧
    ∃ t, parse_reminder_time t12 now = .ok t := by
  obtain ⟨t, ht⟩ : ∃ t, mkDatetime (yearVal y) (digitsVal mo) (digitsVal d)
      (convert12 (digitsVal h) ap) (digitsVal mi) = some t :=
    Option.ne_none_iff_exists'.mp hvalid
  have h12 : parse_reminder_time t12 now = .ok t := by
    unfold parse_reminder_time
    rw [hm12]
    simp [applyDatetimeBranch, ht]
  have h24eq : parse_reminder_time t24 now = .ok t := by
    unfold parse_reminder_time
    rw [hm24]
    simp [applyDatetimeBranch, hconv, ht]
  exact ⟨h12.trans h24eq.symm, t, h12⟩

/-- C10 witness: `13/05/2025 at 9:30 PM` and `13/05/2025 at 21:30`
parse to the same instant. -/
theorem C10_ampm_witness :
    parse_reminder_time "13/05/2025 at 9:30 PM" 0 =
      parse_reminder_time "13/05/2025 at 21:30" 0 ∧
    ∃ t, parse_reminder_time "13/05/2025 at 9:30 PM" 0 = .ok t :=
  C10_ampm_matches_24h "13/05/2025 at 9:30 PM" "13/05/2025 at 21:30" 0
    ['1','3'] ['0','5'] ['2','0','2','5'] ['9'] ['3','0'] ['2','1'] ['P','M']
    (by decide) (by decide) (by decide) (by decide) (by decide)
